import Mathlib

set_option maxHeartbeats 1000000

set_option maxRecDepth 20000

/-!
Verification development for the similarity ranker and session logic of
`src/app_streamlit.py` (an "AI customer support dashboard" demo).

The Python source is shallowly embedded as follows.

* Python floats are modelled by exact reals (`ℝ`); `math.sqrt` is `Real.sqrt`.
* Python exceptions are modelled by `Except PyErr`: a raising computation
  returns `.error e`, a normal one `.ok v`.  Division, which in Python raises
  `ZeroDivisionError` on a zero denominator, is the checked `pydiv`.
* Ticket dictionaries are the structure `Ticket`; Streamlit session state
  (`st.session_state.tickets`, `st.session_state.sentiment_history`) is the
  structure `SessionState`, with mutation modelled by explicit state passing.
* `random.choice(["Frustrated", "Upset", "Concerned"])` is modelled by an
  explicit index argument `choice` into that list.
* `list.sort(reverse=True)` on `(score, dict)` tuples is modelled by
  `pysort_desc`, a stable descending sort whose comparator `tupleLt` follows
  Python tuple comparison: equal first components fall through to the second
  components, and comparing two distinct dictionaries with `<` raises
  `TypeError`.  CPython's sort compares a tied adjacent pair immediately
  (its first comparison is `a[1] < a[0]`), and during insertion of an element
  whose key ties an already-placed element it compares the two directly, so
  the model raises exactly where CPython raises on all inputs considered here.
* `json.dumps` / `json.loads` are modelled by `json_dumps` / `json_loads`
  over the JSON value grammar this program uses (null, booleans, strings
  without escape sequences, arrays, objects); inputs outside that grammar
  make `json_loads` report a decode error, as `json.loads` raises
  `json.JSONDecodeError` on them.
-/

/-- Python exceptions that the embedded fragments can raise. -/
inductive PyErr where
  | typeError
  | zeroDivisionError
  | jsonDecodeError
  | attributeError
  deriving DecidableEq, Repr

/-- A ticket dictionary `{"id": ..., "customer": ..., "issue": ..., "status": ...}`. -/
structure Ticket where
  id : String
  customer : String
  issue : String
  status : String
  deriving DecidableEq, Repr

/-- Ticket `TCK-1001` seeded at startup (source lines 12-18). -/
def t1001 : Ticket :=
  { id := "TCK-1001", customer := "Alice Johnson"
    issue := "The iOS app crashes immediately when I try to log in.", status := "Open" }

/-- Ticket `TCK-1002` seeded at startup. -/
def t1002 : Ticket :=
  { id := "TCK-1002", customer := "Bob Smith"
    issue := "I've emailed twice already and no one has responded.", status := "Pending" }

/-- Ticket `TCK-1003` seeded at startup. -/
def t1003 : Ticket :=
  { id := "TCK-1003", customer := "Charlie Davis"
    issue := "I was charged twice for my March invoice and no one has fixed it.", status := "Open" }

/-- Ticket `TCK-1004` seeded at startup. -/
def t1004 : Ticket :=
  { id := "TCK-1004", customer := "Dana Lee"
    issue := "The website is loading very slowly for me.", status := "Open" }

/-- Ticket `TCK-1005` seeded at startup. -/
def t1005 : Ticket :=
  { id := "TCK-1005", customer := "Evan Kim"
    issue := "I received the wrong item in my order and need a replacement.", status := "Pending" }

/-- `st.session_state.tickets` as created at startup. -/
def initial_tickets : List Ticket := [t1001, t1002, t1003, t1004, t1005]

/-- The two pieces of Streamlit session state the program mutates. -/
structure SessionState where
  tickets : List Ticket
  sentiment_history : List String
  deriving DecidableEq, Repr

/-- `sum(x*y for x, y in zip(a, b))` (source line 31). -/
def dot (a b : List ℝ) : ℝ := (List.zipWith (fun x y => x * y) a b).sum

/-- `sum(x*x for x in a)`, the quantity under the square roots on lines 32-33. -/
def sumSq (a : List ℝ) : ℝ := (a.map (fun x => x * x)).sum

/-- `math.sqrt(sum(x*x for x in a))`, the Euclidean magnitude of lines 32-33. -/
noncomputable def mag (a : List ℝ) : ℝ := Real.sqrt (sumSq a)

/-- Python division: raises `ZeroDivisionError` on a zero denominator. -/
noncomputable def pydiv (x y : ℝ) : Except PyErr ℝ :=
  if y = 0 then .error .zeroDivisionError else .ok (x / y)

/-- `cosine_similarity` (source lines 30-36): returns `0` when either magnitude
is zero, otherwise divides the dot product by the product of the magnitudes. -/
noncomputable def cosine_similarity (a b : List ℝ) : Except PyErr ℝ :=
  if mag a = 0 ∨ mag b = 0 then .ok 0
  else pydiv (dot a b) (mag a * mag b)

/-- Proof-side value of `cosine_similarity`; the lemma
`cosine_similarity_eq_ok` shows the source function always returns it. -/
noncomputable def cosVal (a b : List ℝ) : ℝ :=
  if mag a = 0 ∨ mag b = 0 then 0 else dot a b / (mag a * mag b)

/-- `embed` (source lines 26-28): the constant placeholder vector `[0.1] * 768`. -/
noncomputable def embed (text : String) : List ℝ := List.replicate 768 (0.1 : ℝ)

/-- Python `<` on the `(score, ticket-dict)` tuples built on source line 40:
equal scores (`==` on floats) fall through to the ticket dictionaries, and
Python 3 raises `TypeError` when ordering two unequal dicts; equal tuples
compare by length, giving `False`. -/
noncomputable def tupleLt (x y : ℝ × Ticket) : Except PyErr Bool :=
  if x.1 = y.1 then
    (if x.2 = y.2 then .ok false else .error .typeError)
  else .ok (if x.1 < y.1 then true else false)

/-- One insertion step of the stable descending sort model: `x` is placed
before the first already-placed element that compares strictly below it, and
after elements that tie or exceed it (preserving input order on ties, as
Python's stable sort does). -/
noncomputable def py_insert (x : ℝ × Ticket) : List (ℝ × Ticket) → Except PyErr (List (ℝ × Ticket))
  | [] => .ok [x]
  | y :: l =>
    match tupleLt y x with
    | .error e => .error e
    | .ok true => .ok (x :: y :: l)
    | .ok false =>
      match py_insert x l with
      | .error e => .error e
      | .ok l' => .ok (y :: l')

/-- Left-to-right driver of the sort model: earlier elements are already
placed when a later one is inserted. -/
noncomputable def pysort_aux (acc : List (ℝ × Ticket)) : List (ℝ × Ticket) → Except PyErr (List (ℝ × Ticket))
  | [] => .ok acc
  | x :: rest =>
    match py_insert x acc with
    | .error e => .error e
    | .ok acc' => pysort_aux acc' rest

/-- Model of `scored.sort(reverse=True)` (source line 41): a stable descending
sort over Python tuple comparison, raising `TypeError` as soon as two tied,
unequal tickets are compared. -/
noncomputable def pysort_desc (l : List (ℝ × Ticket)) : Except PyErr (List (ℝ × Ticket)) :=
  pysort_aux [] l

/-- A list comprehension whose body may raise: the first exception aborts the
whole comprehension. -/
def mapExcept {α β : Type} (f : α → Except PyErr β) : List α → Except PyErr (List β)
  | [] => .ok []
  | x :: xs =>
    match f x with
    | .error e => .error e
    | .ok y =>
      match mapExcept f xs with
      | .error e => .error e
      | .ok ys => .ok (y :: ys)

/-- `retrieve_relevant_tickets` (source lines 38-42) generalised over the
injected embedding capability of the specification; the program instantiates
`emb` with `embed` (see `retrieve_relevant_tickets`). -/
noncomputable def rankWith (emb : String → List ℝ) (query : String)
    (tickets : List Ticket) (top_k : Nat) : Except PyErr (List Ticket) :=
  match mapExcept (fun t =>
      (cosine_similarity (emb query) (emb t.issue)).map (fun s => (s, t))) tickets with
  | .error e => .error e
  | .ok scored =>
    match pysort_desc scored with
    | .error e => .error e
    | .ok sorted => .ok ((sorted.take top_k).map Prod.snd)

/-- `retrieve_relevant_tickets` exactly as in the source, with its hardcoded
`embed` and default `top_k=3`. -/
noncomputable def retrieve_relevant_tickets (query : String) (tickets : List Ticket)
    (top_k : Nat := 3) : Except PyErr (List Ticket) :=
  rankWith embed query tickets top_k

/-- The `(score, ticket)` list built on source line 40, expressed with the
always-returned value `cosVal` of `cosine_similarity`. -/
noncomputable def scoredList (emb : String → List ℝ) (query : String)
    (tickets : List Ticket) : List (ℝ × Ticket) :=
  tickets.map (fun t => (cosVal (emb query) (emb t.issue), t))

/-- Strictly descending by score. -/
def DescSorted (l : List (ℝ × Ticket)) : Prop :=
  l.Pairwise (fun u v => v.1 < u.1)

/-- The one similarity score the program can ever produce: `embed` is
constant, so every score equals `cosVal` of the placeholder vector with
itself. -/
noncomputable def embedScore : ℝ := cosVal (embed "") (embed "")

/-- Candidate record with score 0.9 (first position) in the C3 scenario. -/
def cA : Ticket := { id := "C-A", customer := "a", issue := "issue-a", status := "Open" }

/-- Candidate record with score 0.5 (second position) in the C3 scenario. -/
def cB : Ticket := { id := "C-B", customer := "b", issue := "issue-b", status := "Open" }

/-- Candidate record with score 0.9 (third position) in the C3 scenario. -/
def cC : Ticket := { id := "C-C", customer := "c", issue := "issue-c", status := "Open" }

/-- Candidate record with score 0.1 (fourth position) in the C3 scenario. -/
def cD : Ticket := { id := "C-D", customer := "d", issue := "issue-d", status := "Open" }

/-- An injected embedding (the specification treats `embed` as an injected
capability) realising cosine scores 0.9, 0.5, 0.9, 0.1 for the four
candidates: unit vectors at the corresponding angles from the query `[1, 0]`. -/
noncomputable def embC (s : String) : List ℝ :=
  if s = "issue-b" then [0.5, Real.sqrt 0.75]
  else if s = "issue-d" then [0.1, Real.sqrt 0.99]
  else if s = "the-query" then [1, 0]
  else [0.9, Real.sqrt 0.19]

/-- JSON values in the grammar this program exchanges with its responder:
null, booleans, escape-free strings, arrays, objects (the payload built on
source lines 48-64 contains only strings, arrays and objects). -/
inductive Json where
  | null : Json
  | bool : Bool → Json
  | str : String → Json
  | arr : List Json → Json
  | obj : List (String × Json) → Json
  deriving Repr

mutual

/-- `json.dumps` with its default separators: items joined by a comma and a
space, keys followed by a colon and a space. -/
def json_dumps : Json → String
  | .null => "null"
  | .bool true => "true"
  | .bool false => "false"
  | .str s => "\"" ++ s ++ "\""
  | .arr vs => "[" ++ dumpsList vs ++ "]"
  | .obj kvs => "\x7b" ++ dumpsPairs kvs ++ "\x7d"

/-- Serialises the items of an array. -/
def dumpsList : List Json → String
  | [] => ""
  | [v] => json_dumps v
  | v :: vs => json_dumps v ++ ", " ++ dumpsList vs

/-- Serialises the key-value pairs of an object. -/
def dumpsPairs : List (String × Json) → String
  | [] => ""
  | [(k, v)] => "\"" ++ k ++ "\": " ++ json_dumps v
  | (k, v) :: kvs => "\"" ++ k ++ "\": " ++ json_dumps v ++ ", " ++ dumpsPairs kvs

end

/-- JSON insignificant whitespace. -/
def isWs (c : Char) : Bool := c = ' ' || c = '\n' || c = '\t' || c = '\r'

/-- Drops leading JSON whitespace. -/
def skipWs : List Char → List Char
  | [] => []
  | c :: cs => if isWs c then skipWs cs else c :: cs

/-- Reads a string body up to the closing quote; escape sequences are outside
the modelled grammar (none occur in this program's payloads). -/
def parseStringBody : List Char → Except PyErr (String × List Char)
  | [] => .error .jsonDecodeError
  | c :: cs =>
    if c = '"' then .ok ("", cs)
    else if c = '\\' then .error .jsonDecodeError
    else
      match parseStringBody cs with
      | .error e => .error e
      | .ok (s, rest) => .ok (⟨c :: s.data⟩, rest)

mutual

/-- Parses one JSON value; the fuel argument only bounds recursion depth and
is always sufficient when set to the input length plus one. -/
def parseValue : Nat → List Char → Except PyErr (Json × List Char)
  | 0, _ => .error .jsonDecodeError
  | fuel + 1, cs =>
    match skipWs cs with
    | [] => .error .jsonDecodeError
    | c :: rest =>
      if c = '"' then
        match parseStringBody rest with
        | .error e => .error e
        | .ok (s, r) => .ok (.str s, r)
      else if c = '[' then
        match skipWs rest with
        | ']' :: r => .ok (.arr [], r)
        | r =>
          match parseItems fuel r with
          | .error e => .error e
          | .ok (vs, r') => .ok (.arr vs, r')
      else if c = '\x7b' then
        match skipWs rest with
        | '\x7d' :: r => .ok (.obj [], r)
        | r =>
          match parsePairs fuel r with
          | .error e => .error e
          | .ok (kvs, r') => .ok (.obj kvs, r')
      else if c = 'n' then
        match rest with
        | 'u' :: 'l' :: 'l' :: r => .ok (.null, r)
        | _ => .error .jsonDecodeError
      else if c = 't' then
        match rest with
        | 'r' :: 'u' :: 'e' :: r => .ok (.bool true, r)
        | _ => .error .jsonDecodeError
      else if c = 'f' then
        match rest with
        | 'a' :: 'l' :: 's' :: 'e' :: r => .ok (.bool false, r)
        | _ => .error .jsonDecodeError
      else .error .jsonDecodeError

/-- Parses the remaining items of a non-empty array. -/
def parseItems : Nat → List Char → Except PyErr (List Json × List Char)
  | 0, _ => .error .jsonDecodeError
  | fuel + 1, cs =>
    match parseValue fuel cs with
    | .error e => .error e
    | .ok (v, r) =>
      match skipWs r with
      | ']' :: r' => .ok ([v], r')
      | ',' :: r' =>
        match parseItems fuel r' with
        | .error e => .error e
        | .ok (vs, r'') => .ok (v :: vs, r'')
      | _ => .error .jsonDecodeError

/-- Parses the remaining pairs of a non-empty object. -/
def parsePairs : Nat → List Char → Except PyErr (List (String × Json) × List Char)
  | 0, _ => .error .jsonDecodeError
  | fuel + 1, cs =>
    match skipWs cs with
    | '"' :: r =>
      match parseStringBody r with
      | .error e => .error e
      | .ok (k, r1) =>
        match skipWs r1 with
        | ':' :: r2 =>
          match parseValue fuel r2 with
          | .error e => .error e
          | .ok (v, r3) =>
            match skipWs r3 with
            | '\x7d' :: r4 => .ok ([(k, v)], r4)
            | ',' :: r4 =>
              match parsePairs fuel r4 with
              | .error e => .error e
              | .ok (kvs, r5) => .ok ((k, v) :: kvs, r5)
            | _ => .error .jsonDecodeError
        | _ => .error .jsonDecodeError
    | _ => .error .jsonDecodeError

end

/-- `json.loads`: parses one value and requires only whitespace to follow;
anything else (including the malformed inputs of §7 of the specification)
yields a decode error, where Python raises `json.JSONDecodeError`. -/
def json_loads (s : String) : Except PyErr Json :=
  match parseValue (s.length + 1) s.data with
  | .error e => .error e
  | .ok (v, rest) =>
    match skipWs rest with
    | [] => .ok v
    | _ => .error .jsonDecodeError

/-- The population of `random.choice` on source line 46. -/
def sentiment_choices : List String := ["Frustrated", "Upset", "Concerned"]

/-- The fixed response object `call_llm` serialises (source lines 48-64),
parameterised by the drawn sentiment. -/
def llm_payload (sentiment : String) : Json :=
  .obj [
    ("issue_summary", .arr [.str "The customer reports app crashes, lack of support response, and billing issues."]),
    ("customer_sentiment", .str sentiment),
    ("draft_reply", .str "Dear Customer, we are investigating your issue. Our support team is prioritizing the app crash, email response delays, and billing concerns. We will follow up shortly with a resolution."),
    ("recommended_actions", .arr [.str "Investigate app crash", .str "Respond to pending tickets", .str "Resolve billing issue", .str "Follow up with customers"])]

/-- `call_llm` (source lines 44-64): draws a sentiment (`random.choice` is
modelled by the explicit index `choice`), appends it to
`st.session_state.sentiment_history`, and returns `json.dumps` of the fixed
payload.  The `prompt` argument is, as in the source, never used. -/
def call_llm (prompt : String) (choice : Fin sentiment_choices.length)
    (st : SessionState) : String × SessionState :=
  let sentiment := sentiment_choices.get choice
  (json_dumps (llm_payload sentiment),
   { st with sentiment_history := st.sentiment_history ++ [sentiment] })

/-- First-match association lookup; the program's payload has no duplicate
keys, so this agrees with Python dict lookup on everything reachable here. -/
def lookupFirst : List (String × Json) → String → Option Json
  | [], _ => none
  | (k, v) :: kvs, key => if k = key then some v else lookupFirst kvs key

/-- `response_json.get(key, default)` on a parsed object. -/
def objGet : Json → String → Option Json
  | .obj kvs, key => lookupFirst kvs key
  | _, _ => none

/-- The keys of a parsed object, in order. -/
def objKeys : Json → List String
  | .obj kvs => kvs.map Prod.fst
  | _ => []

/-- The four values the Run-AI handler extracts from the parsed response
(source lines 163-166), with the handler's `.get` defaults. -/
structure AIResult where
  issue_summary : Json
  customer_sentiment : Json
  draft_reply : Json
  recommended_actions : Json
  deriving Repr

/-- The extraction of source lines 163-166: each field via
`response_json.get(key, default)` with the defaults written there. -/
def extract_result (kvs : List (String × Json)) : AIResult :=
  { issue_summary := (lookupFirst kvs "issue_summary").getD (.arr [])
    customer_sentiment := (lookupFirst kvs "customer_sentiment").getD (.str "Unknown")
    draft_reply := (lookupFirst kvs "draft_reply").getD (.str "No reply generated.")
    recommended_actions := (lookupFirst kvs "recommended_actions").getD (.arr []) }

/-- The parse-and-extract step of the Run-AI handler (source lines 155-166):
`response_json = json.loads(response)` is not wrapped in any try/except, so a
parse failure propagates; `.get` on a non-dict value raises
`AttributeError`. -/
def run_ai_handler (response : String) : Except PyErr AIResult :=
  match json_loads response with
  | .error e => .error e
  | .ok (.obj kvs) => .ok (extract_result kvs)
  | .ok _ => .error .attributeError

/-- The status-update interaction of the ticket loop (source lines 112-120):
the record at position `i` gets its `status` field overwritten when the
selected value differs, and nothing else in the list is touched. -/
def update_status : List Ticket → Nat → String → List Ticket
  | [], _, _ => []
  | t :: ts, 0, new_status =>
    (if new_status = t.status then t else { t with status := new_status }) :: ts
  | t :: ts, i + 1, new_status => t :: update_status ts i new_status

theorem sumSq_nonneg (a : List ℝ) : 0 ≤ sumSq a := by
  refine List.sum_nonneg ?_
  intro x hx
  rcases List.mem_map.1 hx with ⟨y, _, rfl⟩
  exact mul_self_nonneg y

theorem mag_nonneg (a : List ℝ) : 0 ≤ mag a := Real.sqrt_nonneg _

theorem mag_eq_zero_iff (a : List ℝ) : mag a = 0 ↔ sumSq a = 0 := by
  unfold mag
  rw [Real.sqrt_eq_zero']
  constructor
  · intro h
    exact le_antisymm h (sumSq_nonneg a)
  · intro h
    exact le_of_eq h

theorem mag_mul_self (a : List ℝ) : mag a * mag a = sumSq a :=
  Real.mul_self_sqrt (sumSq_nonneg a)

theorem dot_self_eq_sumSq (a : List ℝ) : dot a a = sumSq a := by
  induction a with
  | nil => rfl
  | cons x xs ih =>
    simp only [dot, List.zipWith_cons_cons, List.sum_cons, sumSq, List.map_cons] at *
    rw [ih]

theorem cosine_similarity_eq_ok (a b : List ℝ) :
    cosine_similarity a b = .ok (cosVal a b) := by
  unfold cosine_similarity cosVal
  by_cases h : mag a = 0 ∨ mag b = 0
  · rw [if_pos h, if_pos h]
  · rw [if_neg h, if_neg h]
    push_neg at h
    unfold pydiv
    rw [if_neg (mul_ne_zero h.1 h.2)]

theorem cosine_never_raises (a b : List ℝ) : ∃ r, cosine_similarity a b = .ok r :=
  ⟨cosVal a b, cosine_similarity_eq_ok a b⟩

/-- **C1**: if either vector has zero Euclidean norm, `cosine_similarity`
returns exactly `0`, and the division branch is only ever executed with a
nonzero divisor (so no `ZeroDivisionError` can be raised): for every pair of
vectors the call returns a value rather than an error. -/
theorem cosine_similarity_zero_norm_safe (a b : List ℝ) :
    ((mag a = 0 ∨ mag b = 0) → cosine_similarity a b = .ok 0) ∧
    (¬(mag a = 0 ∨ mag b = 0) →
      mag a * mag b ≠ 0 ∧
      cosine_similarity a b = .ok (dot a b / (mag a * mag b))) ∧
    (∃ r, cosine_similarity a b = .ok r) := by
  refine ⟨?_, ?_, cosine_never_raises a b⟩
  · intro h
    unfold cosine_similarity
    rw [if_pos h]
  · intro h
    push_neg at h
    have hne : mag a * mag b ≠ 0 := mul_ne_zero h.1 h.2
    refine ⟨hne, ?_⟩
    unfold cosine_similarity pydiv
    rw [if_neg (by push_neg; exact h), if_neg hne]

/-- Witness for C1 at the zero vector `[0, 0]` against `[1]`. -/
theorem cosine_similarity_zero_norm_safe_witness :
    cosine_similarity [(0 : ℝ), 0] [(1 : ℝ)] = .ok 0 := by
  have hmag : mag [(0 : ℝ), 0] = 0 := by
    rw [mag_eq_zero_iff]
    unfold sumSq
    norm_num
  exact (cosine_similarity_zero_norm_safe [(0 : ℝ), 0] [(1 : ℝ)]).1 (Or.inl hmag)

theorem mag_single_one : mag [(1 : ℝ)] = 1 := by
  unfold mag sumSq
  norm_num

theorem cos_self_one (v : List ℝ) (h : mag v ≠ 0) :
    cosine_similarity v v = .ok 1 := by
  have hs : sumSq v ≠ 0 := fun hz => h ((mag_eq_zero_iff v).2 hz)
  unfold cosine_similarity pydiv
  rw [if_neg (by push_neg; exact ⟨h, h⟩), if_neg (mul_ne_zero h h)]
  rw [dot_self_eq_sumSq, mag_mul_self, div_self hs]

/-- **C6**: with exact arithmetic, `cosine_similarity(v, v) = 1` for every
vector `v` of nonzero norm (for a zero-norm `v` the guard returns `0`, which
is why the claim restricts exact equality to nonzero norms). -/
theorem cosine_similarity_self_eq_one (v : List ℝ) (h : mag v ≠ 0) :
    cosine_similarity v v = .ok 1 :=
  cos_self_one v h

/-- Witness for C6 at the concrete vector `[1]`. -/
theorem cosine_similarity_self_eq_one_witness :
    cosine_similarity [(1 : ℝ)] [(1 : ℝ)] = .ok 1 :=
  cosine_similarity_self_eq_one [(1 : ℝ)] (by rw [mag_single_one]; norm_num)

theorem cauchy_schwarz_step (x y d Sa Sb : ℝ) (hd : d ^ 2 ≤ Sa * Sb)
    (hSa : 0 ≤ Sa) (hSb : 0 ≤ Sb) :
    (x * y + d) ^ 2 ≤ (x * x + Sa) * (y * y + Sb) := by
  rcases hSb.eq_or_lt with h0 | hpos
  · have hd2 : d ^ 2 = 0 := le_antisymm (by nlinarith) (sq_nonneg d)
    have hd0 : d = 0 := by
      have := sq_eq_zero_iff.1 hd2
      exact this
    subst hd0
    nlinarith [mul_nonneg hSa (mul_self_nonneg y)]
  · nlinarith [sq_nonneg (x * Sb - y * d),
      mul_nonneg (sub_nonneg.2 hd) (add_nonneg (mul_self_nonneg y) hSb), hpos]

theorem dot_sq_le_sumSq_mul (a b : List ℝ) : dot a b ^ 2 ≤ sumSq a * sumSq b := by
  induction a generalizing b with
  | nil =>
    simp [dot, sumSq]
  | cons x xs ih =>
    cases b with
    | nil =>
      simp [dot, sumSq]
    | cons y ys =>
      have hd := ih ys
      have hSa := sumSq_nonneg xs
      have hSb := sumSq_nonneg ys
      simp only [dot, sumSq, List.zipWith_cons_cons, List.sum_cons, List.map_cons] at hd hSa hSb ⊢
      exact cauchy_schwarz_step x y _ _ _ hd hSa hSb

theorem abs_dot_le_mag_mul_mag (a b : List ℝ) : |dot a b| ≤ mag a * mag b := by
  calc |dot a b| = Real.sqrt (dot a b ^ 2) := (Real.sqrt_sq_eq_abs _).symm
    _ ≤ Real.sqrt (sumSq a * sumSq b) := Real.sqrt_le_sqrt (dot_sq_le_sumSq_mul a b)
    _ = mag a * mag b := Real.sqrt_mul (sumSq_nonneg a) _

/-- **C7**: every value `cosine_similarity` returns lies in `[-1, 1]`; it is
the dot product over the product of magnitudes when both magnitudes are
nonzero and `0` otherwise (bounded via Cauchy-Schwarz, `dot_sq_le_sumSq_mul`). -/
theorem cosine_similarity_bounded (a b : List ℝ) :
    (∀ r, cosine_similarity a b = .ok r → -1 ≤ r ∧ r ≤ 1) ∧
    ((mag a ≠ 0 ∧ mag b ≠ 0) →
      cosine_similarity a b = .ok (dot a b / (mag a * mag b))) ∧
    ((mag a = 0 ∨ mag b = 0) → cosine_similarity a b = .ok 0) := by
  refine ⟨?_, ?_, ?_⟩
  · intro r hr
    rw [cosine_similarity_eq_ok] at hr
    have hrv : cosVal a b = r := Except.ok.inj hr
    subst hrv
    unfold cosVal
    by_cases h : mag a = 0 ∨ mag b = 0
    · rw [if_pos h]; norm_num
    · rw [if_neg h]
      push_neg at h
      have hma : 0 < mag a := lt_of_le_of_ne (mag_nonneg a) (Ne.symm h.1)
      have hmb : 0 < mag b := lt_of_le_of_ne (mag_nonneg b) (Ne.symm h.2)
      have hprod : 0 < mag a * mag b := mul_pos hma hmb
      rw [← abs_le]
      rw [abs_div, abs_of_pos hprod]
      rw [div_le_one hprod]
      exact abs_dot_le_mag_mul_mag a b
  · intro h
    unfold cosine_similarity pydiv
    rw [if_neg (by push_neg; exact h), if_neg (mul_ne_zero h.1 h.2)]
  · intro h
    unfold cosine_similarity
    rw [if_pos h]

/-- Witness for C7 at the pair `[1]`, `[1]`, whose similarity is `1`. -/
theorem cosine_similarity_bounded_witness : -1 ≤ (1 : ℝ) ∧ (1 : ℝ) ≤ 1 := by
  have hone : cosine_similarity [(1 : ℝ)] [(1 : ℝ)] = .ok 1 := by
    have h : mag [(1 : ℝ)] ≠ 0 := by rw [mag_single_one]; norm_num
    have hs : sumSq [(1 : ℝ)] ≠ 0 := fun hz => h ((mag_eq_zero_iff _).2 hz)
    unfold cosine_similarity pydiv
    rw [if_neg (by push_neg; exact ⟨h, h⟩), if_neg (mul_ne_zero h h)]
    rw [dot_self_eq_sumSq, mag_mul_self, div_self hs]
  exact (cosine_similarity_bounded [(1 : ℝ)] [(1 : ℝ)]).1 1 hone

theorem mapExcept_scored (emb : String → List ℝ) (query : String) (tickets : List Ticket) :
    mapExcept (fun t =>
      (cosine_similarity (emb query) (emb t.issue)).map (fun s => (s, t))) tickets
      = .ok (scoredList emb query tickets) := by
  induction tickets with
  | nil => rfl
  | cons t ts ih =>
    unfold mapExcept
    rw [cosine_similarity_eq_ok, ih]
    rfl

theorem rankWith_eq (emb : String → List ℝ) (query : String) (tickets : List Ticket)
    (top_k : Nat) :
    rankWith emb query tickets top_k =
      match pysort_desc (scoredList emb query tickets) with
      | .error e => .error e
      | .ok sorted => .ok ((sorted.take top_k).map Prod.snd) := by
  unfold rankWith
  rw [mapExcept_scored]

theorem tupleLt_tie (s : ℝ) (u v : Ticket) (h : u ≠ v) :
    tupleLt (s, u) (s, v) = .error .typeError := by
  unfold tupleLt
  rw [if_pos rfl, if_neg h]

theorem tupleLt_of_ne (x y : ℝ × Ticket) (h : x.1 ≠ y.1) :
    tupleLt x y = .ok (if x.1 < y.1 then true else false) := by
  unfold tupleLt
  rw [if_neg h]

theorem py_insert_perm (x : ℝ × Ticket) :
    ∀ (acc l' : List (ℝ × Ticket)), py_insert x acc = .ok l' → l'.Perm (x :: acc) := by
  intro acc
  induction acc with
  | nil =>
    intro l' h
    unfold py_insert at h
    injection h with h
    subst h
    exact List.Perm.refl _
  | cons y l ih =>
    intro l' h
    unfold py_insert at h
    cases hlt : tupleLt y x with
    | error e => rw [hlt] at h; cases h
    | ok b =>
      rw [hlt] at h
      cases b with
      | true =>
        injection h with h
        subst h
        exact List.Perm.refl _
      | false =>
        cases hins : py_insert x l with
        | error e => rw [hins] at h; cases h
        | ok l'' =>
          rw [hins] at h
          injection h with h
          subst h
          exact ((ih l'' hins).cons y).trans (List.Perm.swap x y l)

theorem pysort_aux_perm :
    ∀ (rest acc l : List (ℝ × Ticket)), pysort_aux acc rest = .ok l → l.Perm (acc ++ rest) := by
  intro rest
  induction rest with
  | nil =>
    intro acc l h
    unfold pysort_aux at h
    injection h with h
    subst h
    simp
  | cons x rest ih =>
    intro acc l h
    unfold pysort_aux at h
    cases hins : py_insert x acc with
    | error e => rw [hins] at h; cases h
    | ok acc' =>
      rw [hins] at h
      have h1 := ih acc' l h
      have h2 : acc'.Perm (x :: acc) := py_insert_perm x acc acc' hins
      exact (h1.trans (h2.append_right rest)).trans List.perm_middle.symm

theorem py_insert_ok_of_distinct (x : ℝ × Ticket) :
    ∀ acc : List (ℝ × Ticket), (∀ y ∈ acc, y.1 ≠ x.1) → DescSorted acc →
      ∃ l', py_insert x acc = .ok l' ∧ DescSorted l' := by
  intro acc
  induction acc with
  | nil =>
    intro _ _
    exact ⟨[x], rfl, List.pairwise_singleton _ _⟩
  | cons y l ih =>
    intro hne hs
    have hys : y.1 ≠ x.1 := hne y (List.mem_cons_self y l)
    have hrest : ∀ z ∈ l, z.1 ≠ x.1 := fun z hz => hne z (List.mem_cons_of_mem y hz)
    rcases List.pairwise_cons.1 hs with ⟨hyl, hsl⟩
    by_cases hlt : y.1 < x.1
    · refine ⟨x :: y :: l, ?_, ?_⟩
      · unfold py_insert
        rw [tupleLt_of_ne y x hys, if_pos hlt]
      · refine List.pairwise_cons.2 ⟨?_, hs⟩
        intro z hz
        rcases List.mem_cons.1 hz with rfl | hz'
        · exact hlt
        · exact (hyl z hz').trans hlt
    · have hxy : x.1 < y.1 := lt_of_le_of_ne (not_lt.1 hlt) (fun h => hys h.symm)
      rcases ih hrest hsl with ⟨l', hins, hsl'⟩
      refine ⟨y :: l', ?_, ?_⟩
      · unfold py_insert
        rw [tupleLt_of_ne y x hys, if_neg hlt, hins]
      · refine List.pairwise_cons.2 ⟨?_, hsl'⟩
        intro z hz
        have hz' : z ∈ x :: l := (py_insert_perm x l l' hins).mem_iff.1 hz
        rcases List.mem_cons.1 hz' with rfl | hz''
        · exact hxy
        · exact hyl z hz''

theorem pysort_aux_ok_of_distinct :
    ∀ rest acc : List (ℝ × Ticket),
      ((acc ++ rest).map Prod.fst).Nodup → DescSorted acc →
      ∃ l, pysort_aux acc rest = .ok l ∧ DescSorted l := by
  intro rest
  induction rest with
  | nil =>
    intro acc _ hs
    exact ⟨acc, rfl, hs⟩
  | cons x rest ih =>
    intro acc hnd hs
    have hne : ∀ y ∈ acc, y.1 ≠ x.1 := by
      intro y hy heq
      rw [List.map_append, List.nodup_append] at hnd
      exact hnd.2.2 (List.mem_map_of_mem Prod.fst hy) (by rw [heq]; simp)
    rcases py_insert_ok_of_distinct x acc hne hs with ⟨acc', hins, hs'⟩
    have hperm : acc'.Perm (x :: acc) := py_insert_perm x acc acc' hins
    have hnd' : ((acc' ++ rest).map Prod.fst).Nodup := by
      have hp : (acc' ++ rest).Perm (acc ++ x :: rest) :=
        (hperm.append_right rest).trans List.perm_middle.symm
      exact ((hp.map Prod.fst).nodup_iff).2 hnd
    rcases ih acc' hnd' hs' with ⟨l, hsort, hsl⟩
    refine ⟨l, ?_, hsl⟩
    unfold pysort_aux
    rw [hins]
    exact hsort

theorem scoredList_embed (q : String) (ts : List Ticket) :
    scoredList embed q ts = ts.map (fun t => (embedScore, t)) := rfl

theorem sumSq_replicate (n : ℕ) (x : ℝ) :
    sumSq (List.replicate n x) = n * (x * x) := by
  induction n with
  | zero => simp [sumSq]
  | succ n ih =>
    rw [List.replicate_succ]
    simp only [sumSq, List.map_cons, List.sum_cons] at ih ⊢
    rw [ih]
    push_cast
    ring

theorem mag_embed_ne_zero (s : String) : mag (embed s) ≠ 0 := by
  rw [Ne, mag_eq_zero_iff]
  unfold embed
  rw [sumSq_replicate]
  norm_num

theorem embed_cos_ok (q s : String) : cosine_similarity (embed q) (embed s) = .ok 1 := by
  have h : cosine_similarity (embed q) (embed q) = .ok 1 :=
    cos_self_one (embed q) (mag_embed_ne_zero q)
  exact h

theorem embedScore_eq_one : embedScore = 1 := by
  have h1 := cosine_similarity_eq_ok (embed "") (embed "")
  have h2 := embed_cos_ok "" ""
  exact Except.ok.inj (h1.symm.trans h2)

/-- **C8**: `embed` returns the constant vector `[0.1] * 768` for every input,
every candidate consequently receives the identical similarity score `1`
against any query, and the ranking result is independent of the query text. -/
theorem embed_constant_ranking_indiscriminate :
    (∀ s, embed s = List.replicate 768 (0.1 : ℝ)) ∧
    (∀ q s, cosine_similarity (embed q) (embed s) = .ok 1) ∧
    (∀ q q' (ts : List Ticket) (k : Nat),
      retrieve_relevant_tickets q ts k = retrieve_relevant_tickets q' ts k) :=
  ⟨fun _ => rfl, embed_cos_ok, fun _ _ _ _ => rfl⟩

theorem pysort_desc_tie_head (s : ℝ) (u v : Ticket) (h : u ≠ v)
    (rest : List (ℝ × Ticket)) :
    pysort_desc ((s, u) :: (s, v) :: rest) = .error .typeError := by
  have ht : tupleLt (s, u) (s, v) = .error .typeError := tupleLt_tie s u v h
  unfold pysort_desc
  simp only [pysort_aux, py_insert, ht]

/-- **C2 (behaviour at the failing input)**: on the program's own seeded
ticket list, `retrieve_relevant_tickets` raises `TypeError` for every query
and every `top_k` instead of returning a list: all five scores are the equal
constant `embedScore`, so Python's tuple sort falls through to ordering the
ticket dicts. -/
theorem retrieve_initial_tickets_raises (q : String) (k : Nat) :
    retrieve_relevant_tickets q initial_tickets k = .error .typeError := by
  unfold retrieve_relevant_tickets
  rw [rankWith_eq, scoredList_embed]
  simp only [initial_tickets, List.map_cons, List.map_nil]
  rw [pysort_desc_tie_head embedScore t1001 t1002 (by decide)]

theorem cos_unit_pair (x y : ℝ) (hy : 0 ≤ y) (hxy : x * x + y = 1) :
    cosine_similarity [1, 0] [x, Real.sqrt y] = .ok x := by
  have hmq : mag [(1 : ℝ), 0] = 1 := by
    unfold mag sumSq
    norm_num
  have hmc : mag [x, Real.sqrt y] = 1 := by
    unfold mag sumSq
    simp only [List.map_cons, List.map_nil, List.sum_cons, List.sum_nil, add_zero]
    rw [Real.mul_self_sqrt hy, hxy, Real.sqrt_one]
  have hd : dot [(1 : ℝ), 0] [x, Real.sqrt y] = x := by
    unfold dot
    simp
  unfold cosine_similarity pydiv
  rw [hmq, hmc, hd]
  norm_num

theorem embC_score_A : cosine_similarity (embC "the-query") (embC cA.issue) = .ok 0.9 := by
  have h : cosine_similarity [(1 : ℝ), 0] [0.9, Real.sqrt 0.19] = .ok 0.9 :=
    cos_unit_pair 0.9 0.19 (by norm_num) (by norm_num)
  simpa [embC, cA] using h

theorem embC_score_B : cosine_similarity (embC "the-query") (embC cB.issue) = .ok 0.5 := by
  have h : cosine_similarity [(1 : ℝ), 0] [0.5, Real.sqrt 0.75] = .ok 0.5 :=
    cos_unit_pair 0.5 0.75 (by norm_num) (by norm_num)
  simpa [embC, cB] using h

theorem embC_score_C : cosine_similarity (embC "the-query") (embC cC.issue) = .ok 0.9 := by
  have h : cosine_similarity [(1 : ℝ), 0] [0.9, Real.sqrt 0.19] = .ok 0.9 :=
    cos_unit_pair 0.9 0.19 (by norm_num) (by norm_num)
  simpa [embC, cC] using h

theorem embC_score_D : cosine_similarity (embC "the-query") (embC cD.issue) = .ok 0.1 := by
  have h : cosine_similarity [(1 : ℝ), 0] [0.1, Real.sqrt 0.99] = .ok 0.1 :=
    cos_unit_pair 0.1 0.99 (by norm_num) (by norm_num)
  simpa [embC, cD] using h

theorem cosVal_of_ok {a b : List ℝ} {r : ℝ} (h : cosine_similarity a b = .ok r) :
    cosVal a b = r :=
  Except.ok.inj ((cosine_similarity_eq_ok a b).symm.trans h)

/-- **C3 (counterexample)**: four candidates whose similarity scores against
the query are exactly [0.9, 0.5, 0.9, 0.1]; with `top_k = 2` the ranking does
not return the first- and third-position candidates — it raises `TypeError`
when the sort compares the two tied `(0.9, dict)` tuples. -/
theorem rank_example_scores_raises :
    cosine_similarity (embC "the-query") (embC cA.issue) = .ok 0.9 ∧
    cosine_similarity (embC "the-query") (embC cB.issue) = .ok 0.5 ∧
    cosine_similarity (embC "the-query") (embC cC.issue) = .ok 0.9 ∧
    cosine_similarity (embC "the-query") (embC cD.issue) = .ok 0.1 ∧
    rankWith embC "the-query" [cA, cB, cC, cD] 2 = .error .typeError ∧
    rankWith embC "the-query" [cA, cB, cC, cD] 2 ≠ .ok [cA, cC] := by
  have hsc : scoredList embC "the-query" [cA, cB, cC, cD] =
      [((0.9 : ℝ), cA), ((0.5 : ℝ), cB), ((0.9 : ℝ), cC), ((0.1 : ℝ), cD)] := by
    unfold scoredList
    rw [List.map_cons, List.map_cons, List.map_cons, List.map_cons, List.map_nil]
    rw [cosVal_of_ok embC_score_A, cosVal_of_ok embC_score_B,
      cosVal_of_ok embC_score_C, cosVal_of_ok embC_score_D]
  have h1 : tupleLt ((0.9 : ℝ), cA) ((0.5 : ℝ), cB) = .ok false := by
    rw [tupleLt_of_ne _ _ (by norm_num)]
    norm_num
  have h2 : tupleLt ((0.9 : ℝ), cA) ((0.9 : ℝ), cC) = .error .typeError :=
    tupleLt_tie _ _ _ (by decide)
  have hrank : rankWith embC "the-query" [cA, cB, cC, cD] 2 = .error .typeError := by
    rw [rankWith_eq, hsc]
    unfold pysort_desc
    simp only [pysort_aux, py_insert, h1, h2]
  exact ⟨embC_score_A, embC_score_B, embC_score_C, embC_score_D, hrank, by
    rw [hrank]
    intro h
    cases h⟩

/-- **C3 (amended)**: when the candidates' similarity scores are pairwise
distinct, the sort raises nothing and the ranking is the total order by
strictly descending score, of which the first `top_k` entries are returned;
when two distinct candidates tie (as in the [0.9, 0.5, 0.9, 0.1] example,
see `rank_example_scores_raises`) the sort raises `TypeError` instead of
breaking the tie by input order. -/
theorem rank_distinct_scores_sorted (emb : String → List ℝ) (q : String)
    (ts : List Ticket) (k : Nat)
    (H : ((scoredList emb q ts).map Prod.fst).Nodup) :
    (∀ e, pysort_desc (scoredList emb q ts) ≠ .error e) ∧
    (∀ l, pysort_desc (scoredList emb q ts) = .ok l →
      l.Perm (scoredList emb q ts) ∧ DescSorted l ∧
      rankWith emb q ts k = .ok ((l.take k).map Prod.snd)) := by
  rcases pysort_aux_ok_of_distinct (scoredList emb q ts) [] (by simpa using H)
    List.Pairwise.nil with ⟨l₀, hok, hs₀⟩
  constructor
  · intro e he
    unfold pysort_desc at he
    rw [hok] at he
    cases he
  · intro l hl
    have hl' : pysort_aux [] (scoredList emb q ts) = .ok l := hl
    have hperm : l.Perm (scoredList emb q ts) := by
      simpa using pysort_aux_perm (scoredList emb q ts) [] l hl'
    have hll₀ : l = l₀ := by
      rw [hl'] at hok
      exact Except.ok.inj hok
    refine ⟨hperm, hll₀ ▸ hs₀, ?_⟩
    rw [rankWith_eq, hl]

/-- Witness for the amended C3 at a singleton candidate list (scores trivially
pairwise distinct): the ranking succeeds and returns the candidate. -/
theorem rank_distinct_scores_sorted_witness :
    rankWith embed "wq" [t1001] 1 = .ok [t1001] := by
  have H : ((scoredList embed "wq" [t1001]).map Prod.fst).Nodup := by
    unfold scoredList
    simp
  have hok : pysort_desc (scoredList embed "wq" [t1001]) =
      .ok (scoredList embed "wq" [t1001]) := rfl
  have h := (rank_distinct_scores_sorted embed "wq" [t1001] 1 H).2 _ hok
  rw [h.2.2]
  unfold scoredList
  simp

/-- **C5**: ranking is pure — equal inputs give equal results, and every
record in a successfully returned ranking is literally one of the input
records (the candidate list is only read, never rewritten: the sort acts on
the fresh `scored` list of pairs). -/
theorem rank_pure (emb : String → List ℝ) (q q' : String) (ts : List Ticket)
    (k : Nat) (hq : q = q') :
    rankWith emb q ts k = rankWith emb q' ts k ∧
    (∀ l, rankWith emb q ts k = .ok l → ∀ t ∈ l, t ∈ ts) := by
  subst hq
  refine ⟨rfl, ?_⟩
  intro l hl t ht
  rw [rankWith_eq] at hl
  cases hsort : pysort_desc (scoredList emb q ts) with
  | error e =>
    rw [hsort] at hl
    cases hl
  | ok sorted =>
    rw [hsort] at hl
    injection hl with hl
    subst hl
    rcases List.mem_map.1 ht with ⟨p, hp, rfl⟩
    have hp' : p ∈ sorted := List.mem_of_mem_take hp
    have hsort' : pysort_aux [] (scoredList emb q ts) = .ok sorted := hsort
    have hperm : sorted.Perm (scoredList emb q ts) := by
      simpa using pysort_aux_perm (scoredList emb q ts) [] sorted hsort'
    have hmem : p ∈ scoredList emb q ts := hperm.mem_iff.1 hp'
    rcases List.mem_map.1 hmem with ⟨t₀, ht₀, hpeq⟩
    rw [← hpeq]
    exact ht₀

/-- Witness for C5: two runs at the same singleton input agree, and the
record of the returned ranking is an input record. -/
theorem rank_pure_witness :
    rankWith embed "x" [t1001] 1 = rankWith embed "x" [t1001] 1 ∧
    t1001 ∈ [t1001] := by
  have h := rank_pure embed "x" "x" [t1001] 1 rfl
  refine ⟨h.1, ?_⟩
  have hok : rankWith embed "x" [t1001] 1 = .ok [t1001] := by
    rw [rankWith_eq]
    have hs : pysort_desc (scoredList embed "x" [t1001]) =
        .ok (scoredList embed "x" [t1001]) := rfl
    rw [hs]
    unfold scoredList
    simp
  exact h.2 [t1001] hok t1001 (by simp)

/-- **C4 (counterexample)**: feeding the responder output `"not json"` to the
Run-AI handler raises the parse error instead of producing the degraded
record that carries the raw text in `draft_reply` with empty
`recommended_actions`. -/
theorem run_ai_not_json_raises :
    run_ai_handler "not json" = .error .jsonDecodeError ∧
    run_ai_handler "not json" ≠
      .ok { issue_summary := .arr [], customer_sentiment := .str "Unknown"
            draft_reply := .str "not json", recommended_actions := .arr [] } := by
  refine ⟨rfl, ?_⟩
  intro h
  rw [show run_ai_handler "not json" = .error .jsonDecodeError from rfl] at h
  cases h

/-- **C4 (amended)**: a responder output that `json.loads` rejects makes the
handler raise that very error (line 158 has no try/except) — no degraded
record is produced; only missing fields of a well-formed JSON object are
absorbed, with the in-code defaults (empty summary, sentiment `"Unknown"`,
reply `"No reply generated."`, empty action list). -/
theorem run_ai_parse_error_propagates :
    (∀ r e, json_loads r = .error e → run_ai_handler r = .error e) ∧
    run_ai_handler "\x7b\x7d" =
      .ok { issue_summary := .arr [], customer_sentiment := .str "Unknown"
            draft_reply := .str "No reply generated.", recommended_actions := .arr [] } := by
  constructor
  · intro r e h
    unfold run_ai_handler
    rw [h]
  · rfl

/-- Witness for the amended C4 at the malformed input `"not json"`. -/
theorem run_ai_parse_error_propagates_witness :
    run_ai_handler "not json" = .error .jsonDecodeError :=
  run_ai_parse_error_propagates.1 "not json" .jsonDecodeError rfl

/-- **C10**: each `call_llm` call appends exactly the drawn sentiment — one of
`"Frustrated"`, `"Upset"`, `"Concerned"` — to `sentiment_history` (touching no
other state), the returned string parses back to the payload object, that
object carries exactly the four documented fields, and its
`customer_sentiment` field is the appended sentiment. -/
theorem call_llm_contract (prompt : String) (choice : Fin sentiment_choices.length)
    (st : SessionState) :
    (call_llm prompt choice st).2.sentiment_history
        = st.sentiment_history ++ [sentiment_choices.get choice] ∧
    (call_llm prompt choice st).2.tickets = st.tickets ∧
    sentiment_choices.get choice ∈ sentiment_choices ∧
    json_loads (call_llm prompt choice st).1
        = .ok (llm_payload (sentiment_choices.get choice)) ∧
    objKeys (llm_payload (sentiment_choices.get choice))
        = ["issue_summary", "customer_sentiment", "draft_reply", "recommended_actions"] ∧
    objGet (llm_payload (sentiment_choices.get choice)) "customer_sentiment"
        = some (.str (sentiment_choices.get choice)) := by
  refine ⟨rfl, rfl, List.get_mem sentiment_choices choice.1 choice.2, ?_, rfl, rfl⟩
  have hchoice : (call_llm prompt choice st).1
      = json_dumps (llm_payload (sentiment_choices.get choice)) := rfl
  rw [hchoice]
  fin_cases choice
  · rfl
  · rfl
  · rfl

theorem update_status_map_id (ts : List Ticket) :
    ∀ i s, (update_status ts i s).map Ticket.id = ts.map Ticket.id := by
  induction ts with
  | nil => intro i s; rfl
  | cons t ts ih =>
    intro i s
    cases i with
    | zero =>
      unfold update_status
      rw [List.map_cons, List.map_cons]
      congr 1
      split
      · rfl
      · rfl
    | succ i =>
      unfold update_status
      rw [List.map_cons, List.map_cons, ih]

theorem update_status_map_customer (ts : List Ticket) :
    ∀ i s, (update_status ts i s).map Ticket.customer = ts.map Ticket.customer := by
  induction ts with
  | nil => intro i s; rfl
  | cons t ts ih =>
    intro i s
    cases i with
    | zero =>
      unfold update_status
      rw [List.map_cons, List.map_cons]
      congr 1
      split
      · rfl
      · rfl
    | succ i =>
      unfold update_status
      rw [List.map_cons, List.map_cons, ih]

theorem update_status_map_issue (ts : List Ticket) :
    ∀ i s, (update_status ts i s).map Ticket.issue = ts.map Ticket.issue := by
  induction ts with
  | nil => intro i s; rfl
  | cons t ts ih =>
    intro i s
    cases i with
    | zero =>
      unfold update_status
      rw [List.map_cons, List.map_cons]
      congr 1
      split
      · rfl
      · rfl
    | succ i =>
      unfold update_status
      rw [List.map_cons, List.map_cons, ih]

theorem update_status_get_ne (ts : List Ticket) :
    ∀ i s j, j ≠ i → (update_status ts i s).get? j = ts.get? j := by
  induction ts with
  | nil => intro i s j _; rfl
  | cons t ts ih =>
    intro i s j hj
    cases i with
    | zero =>
      cases j with
      | zero => exact absurd rfl hj
      | succ j => rfl
    | succ i =>
      cases j with
      | zero => rfl
      | succ j =>
        unfold update_status
        have hj' : j ≠ i := fun h => hj (by rw [h])
        simp only [List.get?_cons_succ]
        exact ih i s j hj'

theorem foldl_update_map_id (ops : List (Nat × String)) :
    ∀ ts : List Ticket,
      ((ops.foldl (fun l p => update_status l p.1 p.2) ts).map Ticket.id)
        = ts.map Ticket.id := by
  induction ops with
  | nil => intro ts; rfl
  | cons op ops ih =>
    intro ts
    rw [List.foldl_cons, ih, update_status_map_id]

/-- **C9**: a status update keeps the list length, every record's `id`,
`customer` and `issue`, and every non-selected record entirely; `call_llm`
never touches the ticket list; and any sequence of status updates (the only
mutations of `st.session_state.tickets` after startup) preserves the
identifiers. -/
theorem status_update_frame (ts : List Ticket) (i : Nat) (s : String) :
    (update_status ts i s).length = ts.length ∧
    (update_status ts i s).map Ticket.id = ts.map Ticket.id ∧
    (update_status ts i s).map Ticket.customer = ts.map Ticket.customer ∧
    (update_status ts i s).map Ticket.issue = ts.map Ticket.issue ∧
    (∀ j, j ≠ i → (update_status ts i s).get? j = ts.get? j) ∧
    (∀ prompt choice st, ((call_llm prompt choice st).2).tickets = st.tickets) ∧
    (∀ ops : List (Nat × String),
      ((ops.foldl (fun l p => update_status l p.1 p.2) ts).map Ticket.id)
        = ts.map Ticket.id) := by
  refine ⟨?_, update_status_map_id ts i s, update_status_map_customer ts i s,
    update_status_map_issue ts i s, update_status_get_ne ts i s,
    fun _ _ _ => rfl, fun ops => foldl_update_map_id ops ts⟩
  have h := congrArg List.length (update_status_map_id ts i s)
  simpa using h

/-- Witness for C9 on the seeded list: updating ticket 0 to `"Resolved"`
leaves position 1 untouched and preserves all identifiers. -/
theorem status_update_frame_witness :
    (update_status initial_tickets 0 "Resolved").get? 1 = initial_tickets.get? 1 ∧
    (update_status initial_tickets 0 "Resolved").map Ticket.id
      = initial_tickets.map Ticket.id := by
  have h := status_update_frame initial_tickets 0 "Resolved"
  exact ⟨h.2.2.2.2.1 1 (by decide), h.2.1⟩
